import Mathlib

/-!
Verification development for the garden incremental evaluation engine
(src/src/main.rs and src/src/parser.rs).

Modelling conventions, stated once here:

* Node ids. The Rust code identifies a node by the 32-byte BLAKE3 digest of
  the byte stream fed to the hasher in `Node::compute_hash`.  The spec and the
  code both treat BLAKE3 as collision-free, so digest equality is equivalent
  to equality of the hashed input streams; the model therefore represents a
  node id by that input stream itself (a `List UInt8`).  Two nodes receive
  equal model ids exactly when the real program feeds identical bytes to
  BLAKE3, i.e. exactly when the real digests are equal absent a collision.
* Machine integers. Rust `i64` values are modelled as `Int`; `to_le_bytes`
  is modelled via the two's-complement residue `n % 2^64`.  The `sum += n`
  and `product *= n` accumulators of the `+` and `*` loops are i64
  operations: the model wraps each step into the i64 range with `wrapI64`
  (release-profile wrapping semantics; a debug build would panic on the
  overflowing step instead of wrapping, and panics are outside the model).
* Timestamps (`last_update`, chrono) are real-time data irrelevant to every
  claim and are omitted from the cache model.
* `reqwest::get` and `serde_json::from_str` inside the evaluator are external
  collaborators; they are supplied as an oracle record `Ext`.
* `HashMap` / `IndexMap` are modelled as association lists with insert-or-
  replace semantics; `HashSet` as a duplicate-free list.
* `str.to_uppercase` is modelled with ASCII case mapping (`Char.toUpper`);
  full Unicode case mapping is irrelevant to the claims.
* Node `metadata` (the `line` entry) is display-only, takes no part in
  hashing or evaluation, and is omitted.
-/

namespace Garden

/-- UTF-8 encoding of a single character (Rust `str::as_bytes` views). -/
def charUtf8 (c : Char) : List UInt8 :=
  let n := c.toNat
  if n < 0x80 then
    [UInt8.ofNat n]
  else if n < 0x800 then
    [UInt8.ofNat (0xC0 ||| (n >>> 6)), UInt8.ofNat (0x80 ||| (n &&& 0x3F))]
  else if n < 0x10000 then
    [UInt8.ofNat (0xE0 ||| (n >>> 12)), UInt8.ofNat (0x80 ||| ((n >>> 6) &&& 0x3F)),
     UInt8.ofNat (0x80 ||| (n &&& 0x3F))]
  else
    [UInt8.ofNat (0xF0 ||| (n >>> 18)), UInt8.ofNat (0x80 ||| ((n >>> 12) &&& 0x3F)),
     UInt8.ofNat (0x80 ||| ((n >>> 6) &&& 0x3F)), UInt8.ofNat (0x80 ||| (n &&& 0x3F))]

/-- UTF-8 bytes of a string, as fed to the BLAKE3 hasher by `compute_hash`. -/
def utf8Bytes (s : String) : List UInt8 :=
  (s.data.map charUtf8).flatten

/-- Little-endian bytes of an `i64`, modelling Rust `i64::to_le_bytes`. -/
def i64LeBytes (n : Int) : List UInt8 :=
  let m := (n % (2 ^ 64 : Int)).toNat
  [UInt8.ofNat (m % 256),
   UInt8.ofNat (m / 256 % 256),
   UInt8.ofNat (m / 256 ^ 2 % 256),
   UInt8.ofNat (m / 256 ^ 3 % 256),
   UInt8.ofNat (m / 256 ^ 4 % 256),
   UInt8.ofNat (m / 256 ^ 5 % 256),
   UInt8.ofNat (m / 256 ^ 6 % 256),
   UInt8.ofNat (m / 256 ^ 7 % 256)]

/-- Two's-complement reduction of an integer into the `i64` range
`[-2^63, 2^63)`, modelling the wrap-around of Rust `i64` arithmetic. -/
def wrapI64 (m : Int) : Int :=
  (m + 2 ^ 63) % 2 ^ 64 - 2 ^ 63

/-- Node id: the byte stream fed to BLAKE3 (see the header note). -/
abbrev NodeId := List UInt8

/-- `NodeKind` from src/src/main.rs (the evaluator's kind enum; it has no
`Let` variant — see the separate spec model further below). -/
inductive NodeKind where
  | Symbol : String → NodeKind
  | Number : Int → NodeKind
  | String : String → NodeKind
  | List : NodeKind
  | Definition : NodeKind
  | Addition : NodeKind
  | Multiplication : NodeKind
  | HttpGet : NodeKind
  | JsonParse : NodeKind
  | JsonGet : NodeKind
  | StringUpper : NodeKind
deriving DecidableEq

/-- The kind discriminator and payload bytes written by `compute_hash`
before the snippet and the child ids. -/
def kindTag : NodeKind → List UInt8
  | .Symbol s => utf8Bytes "Symbol:" ++ utf8Bytes s
  | .Number n => utf8Bytes "Number:" ++ i64LeBytes n
  | .String s => utf8Bytes "String:" ++ utf8Bytes s
  | .List => utf8Bytes "List"
  | .Definition => utf8Bytes "Definition"
  | .Addition => utf8Bytes "Addition"
  | .Multiplication => utf8Bytes "Multiplication"
  | .HttpGet => utf8Bytes "HttpGet"
  | .JsonParse => utf8Bytes "JsonParse"
  | .JsonGet => utf8Bytes "JsonGet"
  | .StringUpper => utf8Bytes "StringUpper"

/-- `Node::compute_hash`: kind tag and payload, then the snippet bytes, then
the children's ids in order. -/
def computeHash (kind : NodeKind) (code : String) (childIds : List NodeId) : NodeId :=
  kindTag kind ++ utf8Bytes code ++ childIds.flatten

/-- `Node` from src/src/main.rs: the id is stored, computed at construction.
The unused `cached_value` field (always `None`) and the display-only
`metadata` map are omitted. -/
inductive Node where
  | mk : NodeId → NodeKind → String → List Node → Node

def Node.id : Node → NodeId
  | .mk i _ _ _ => i

def Node.kind : Node → NodeKind
  | .mk _ k _ _ => k

def Node.code_snippet : Node → String
  | .mk _ _ s _ => s

def Node.children : Node → List Node
  | .mk _ _ _ cs => cs

/-- `Node::new`: compute the hash from kind, snippet and the children's
stored ids, and store it. -/
def mkNode (kind : NodeKind) (code : String) (children : List Node) : Node :=
  .mk (computeHash kind code (children.map Node.id)) kind code children

/-- JSON documents (`serde_json::Value`).  Numbers are modelled as `Int`
(`i64`-representable); floating-point JSON numbers are outside the model. -/
inductive Json where
  | null : Json
  | bool : Bool → Json
  | num : Int → Json
  | str : String → Json
  | arr : List Json → Json
  | obj : List (String × Json) → Json

/-- `Value` from src/src/main.rs. -/
inductive Value where
  | Number : Int → Value
  | String : String → Value
  | Json : Json → Value

/-- `Error` from src/src/main.rs. -/
inductive Error where
  | ParseError : String → Error
  | EvalError : String → Error
  | HttpError : String → Error
  | JsonError : String → Error

/-- The `Display` impl for `Error`. -/
def displayError : Error → String
  | .ParseError msg => "Parse Error: " ++ msg
  | .EvalError msg => "Evaluation Error: " ++ msg
  | .HttpError msg => "HTTP Error: " ++ msg
  | .JsonError msg => "JSON Error: " ++ msg

/-- Rust `Debug` escaping of one character inside a quoted string.  The
common escapes are modelled; the full `escape_debug` mapping of other
control and non-printable characters is irrelevant to the claims. -/
def debugEscapeChar (c : Char) : String :=
  if c = Char.ofNat 34 then String.mk [Char.ofNat 92, Char.ofNat 34]
  else if c = Char.ofNat 92 then String.mk [Char.ofNat 92, Char.ofNat 92]
  else if c = Char.ofNat 10 then String.mk [Char.ofNat 92, Char.ofNat 110]
  else if c = Char.ofNat 9 then String.mk [Char.ofNat 92, Char.ofNat 116]
  else if c = Char.ofNat 13 then String.mk [Char.ofNat 92, Char.ofNat 114]
  else String.mk [c]

/-- Rust `Debug` rendering of a string: quoted and escaped. -/
def rustDebugStr (s : String) : String :=
  String.mk [Char.ofNat 34] ++ String.join (s.data.map debugEscapeChar) ++ String.mk [Char.ofNat 34]

/-- Fuel-indexed `Debug` rendering of `serde_json::Value`
(`Null`, `Bool(true)`, `Number(5)`, `String("x")`, `Array [..]`,
`Object \x7b"k": String("v")\x7d`). -/
def debugJsonFuel : Nat → Json → String
  | 0, _ => ""
  | _ + 1, .null => "Null"
  | _ + 1, .bool b => "Bool(" ++ (if b then "true" else "false") ++ ")"
  | _ + 1, .num n => "Number(" ++ toString n ++ ")"
  | _ + 1, .str s => "String(" ++ rustDebugStr s ++ ")"
  | fuel + 1, .arr xs =>
    "Array [" ++ String.intercalate ", " (xs.map (debugJsonFuel fuel)) ++ "]"
  | fuel + 1, .obj fs =>
    "Object \x7b" ++
      String.intercalate ", "
        (fs.map (fun p => rustDebugStr p.1 ++ ": " ++ debugJsonFuel fuel p.2)) ++
      "\x7d"

/-- Structural depth of a JSON document, used as printing fuel. -/
def jsonDepth : Json → Nat
  | .null => 1
  | .bool _ => 1
  | .num _ => 1
  | .str _ => 1
  | .arr xs => 1 + ((xs.attach.map (fun x => jsonDepth x.1)).foldl max 0)
  | .obj fs => 1 + ((fs.attach.map (fun p => jsonDepth p.1.2)).foldl max 0)
decreasing_by
  · have h := List.sizeOf_lt_of_mem x.2
    simp only [Json.arr.sizeOf_spec]
    omega
  · have h := List.sizeOf_lt_of_mem p.2
    have h2 : sizeOf p.1.2 < sizeOf p.1 := by
      rcases p.1 with ⟨a, b⟩
      simp only [Prod.mk.sizeOf_spec]
      omega
    simp only [Json.obj.sizeOf_spec]
    omega

def debugJson (j : Json) : String := debugJsonFuel (jsonDepth j) j

/-- Rust `Debug` rendering of a `Value`. -/
def debugValue : Value → String
  | .Number n => "Number(" ++ toString n ++ ")"
  | .String s => "String(" ++ rustDebugStr s ++ ")"
  | .Json j => "Json(" ++ debugJson j ++ ")"

/-- Evaluation results: `Result<Value, Error>`. -/
abbrev EvalResult := Except Error Value

/-- Rust `Debug` rendering of a `Result<Value, Error>`, as used by
`format!("\x7b:?\x7d", value)` in `NodeCache::insert`. -/
def debugResult : EvalResult → String
  | .ok v => "Ok(" ++ debugValue v ++ ")"
  | .error (.ParseError m) => "Err(ParseError(" ++ rustDebugStr m ++ "))"
  | .error (.EvalError m) => "Err(EvalError(" ++ rustDebugStr m ++ "))"
  | .error (.HttpError m) => "Err(HttpError(" ++ rustDebugStr m ++ "))"
  | .error (.JsonError m) => "Err(JsonError(" ++ rustDebugStr m ++ "))"

/-- Rust `Debug` rendering of a `NodeKind` (derived `Debug`). -/
def debugNodeKind : NodeKind → String
  | .Symbol s => "Symbol(" ++ rustDebugStr s ++ ")"
  | .Number n => "Number(" ++ toString n ++ ")"
  | .String s => "String(" ++ rustDebugStr s ++ ")"
  | .List => "List"
  | .Definition => "Definition"
  | .Addition => "Addition"
  | .Multiplication => "Multiplication"
  | .HttpGet => "HttpGet"
  | .JsonParse => "JsonParse"
  | .JsonGet => "JsonGet"
  | .StringUpper => "StringUpper"

/-- `convert_json_value` from src/src/main.rs.  JSON numbers are `Int` in
the model, so the `as_i64` conversion always succeeds (the non-`i64`
number branch concerns floats, outside the model). -/
def convertJsonValue : Json → EvalResult
  | .str s => .ok (.String s)
  | .num n => .ok (.Number n)
  | .bool b => .error (.EvalError ("Boolean JSON value (" ++
      (if b then "true" else "false") ++ ") not yet supported as primitive"))
  | .null => .error (.EvalError "Null JSON value not yet supported as primitive")
  | .arr _ => .error (.EvalError "Array JSON value not yet supported as primitive")
  | .obj _ => .error (.EvalError "Nested JSON objects not directly supported as primitive values")

/-- `serde_json::Value::get` with a string key: a lookup for objects,
`None` for every other shape. -/
def jsonObjGet (j : Json) (key : String) : Option Json :=
  match j with
  | .obj fields => fields.lookup key
  | _ => none

/-- Association-list lookup (first match), modelling `HashMap::get` /
`IndexMap::get` on maps whose keys are kept duplicate-free by insertion. -/
def assocLookup {κ α : Type} [DecidableEq κ] : List (κ × α) → κ → Option α
  | [], _ => none
  | (k, v) :: rest, key => if k = key then some v else assocLookup rest key

/-- Association-list insert-or-replace, modelling `HashMap::insert` /
`IndexMap::insert` (replaces in place, appends when absent). -/
def assocInsert {κ α : Type} [DecidableEq κ] : List (κ × α) → κ → α → List (κ × α)
  | [], key, v => [(key, v)]
  | (k, w) :: rest, key, v =>
    if k = key then (key, v) :: rest else (k, w) :: assocInsert rest key v

/-- Set insert on a duplicate-free list, modelling `HashSet::insert`. -/
def setInsert (l : List NodeId) (id : NodeId) : List NodeId :=
  if id ∈ l then l else id :: l

/-- The evaluation context `IndexMap<String, Value>`. -/
abbrev Ctx := List (String × Value)

/-- `NodeCache` from src/src/main.rs.  The `last_update` timestamp map is
real-time data used by no claim and is omitted. -/
structure NodeCache where
  values : List (NodeId × EvalResult)
  changed_nodes : List NodeId
  previously_seen : List NodeId

def emptyNodeCache : NodeCache := ⟨[], [], []⟩

/-- `NodeCache::get`. -/
def NodeCache.get (c : NodeCache) (id : NodeId) : Option EvalResult :=
  assocLookup c.values id

/-- `NodeCache::insert`: mark the id changed iff the incoming result's
`Debug` representation differs from the stored entry's (or none was
stored), then store the value unconditionally. -/
def NodeCache.insert (c : NodeCache) (id : NodeId) (r : EvalResult) : NodeCache :=
  let isChanged : Bool :=
    match assocLookup c.values id with
    | some old => decide (¬ debugResult old = debugResult r)
    | none => true
  { values := assocInsert c.values id r
    changed_nodes := if isChanged then setInsert c.changed_nodes id else c.changed_nodes
    previously_seen := c.previously_seen }

/-- `NodeCache::was_changed`. -/
def NodeCache.was_changed (c : NodeCache) (id : NodeId) : Prop :=
  id ∈ c.changed_nodes

/-- `NodeCache::prepare_for_evaluation`: clear the changed set and record
every currently stored id as previously seen. -/
def prepareForEvaluation (c : NodeCache) : NodeCache :=
  { c with
    changed_nodes := []
    previously_seen := c.values.foldl (fun s p => setInsert s p.1) c.previously_seen }

/-- Oracles for the external collaborators called inside `eval_node`:
`reqwest::get(..).text()` and `serde_json::from_str::<JsonValue>`.  Errors
carry the collaborator's message, converted by the `From` impls to
`HttpError` / `JsonError` at the call sites. -/
structure Ext where
  httpGet : String → Except String String
  jsonFromStr : String → Except String Json

/-- Control flow of one `eval_node` body: `early` models the Rust `return`
statements (including `?` propagation and the cache-hit return), which skip
the final `cache.insert`; `computed` models falling through to it. -/
inductive Flow where
  | early : EvalResult → Ctx → NodeCache → Flow
  | computed : EvalResult → Ctx → NodeCache → Flow

/-- State of the argument loops of the `+` and `*` branches: a running
accumulator, or an error that aborts the enclosing `eval_node` body. -/
inductive ArgAcc where
  | run : Int → Ctx → NodeCache → ArgAcc
  | err : Error → Ctx → NodeCache → ArgAcc

/-- One iteration of the `+` argument loop (`sum += n` is an `i64`
addition, hence the wrap into the i64 range). -/
def addStep (recur : Node → Ctx → NodeCache → EvalResult × Ctx × NodeCache)
    (st : ArgAcc) (arg : Node) : ArgAcc :=
  match st with
  | .err e c k => .err e c k
  | .run acc c k =>
    match recur arg c k with
    | (.ok (.Number n), c2, k2) => .run (wrapI64 (acc + n)) c2 k2
    | (.ok _, c2, k2) =>
      .err (.EvalError "\x27+\x27 requires all arguments to be numbers") c2 k2
    | (.error e, c2, k2) => .err e c2 k2

/-- One iteration of the `*` argument loop (`product *= n` is an `i64`
multiplication, hence the wrap into the i64 range). -/
def mulStep (recur : Node → Ctx → NodeCache → EvalResult × Ctx × NodeCache)
    (st : ArgAcc) (arg : Node) : ArgAcc :=
  match st with
  | .err e c k => .err e c k
  | .run acc c k =>
    match recur arg c k with
    | (.ok (.Number n), c2, k2) => .run (wrapI64 (acc * n)) c2 k2
    | (.ok _, c2, k2) =>
      .err (.EvalError "\x27*\x27 requires all arguments to be numbers") c2 k2
    | (.error e, c2, k2) => .err e c2 k2

/-- The result of the `get` primitive once both arguments are evaluated. -/
def jsonGetResult (jv kv : Value) : EvalResult :=
  match jv, kv with
  | .Json jd, .String key =>
    (match jsonObjGet jd key with
     | some v => convertJsonValue v
     | none => .error (.EvalError ("Key \x27" ++ key ++ "\x27 not found in JSON object")))
  | .Json _, otherKey =>
    .error (.EvalError ("\x27get\x27 expects the second argument (key) to be a string, got " ++
      debugValue otherKey))
  | otherJson, _ =>
    .error (.EvalError ("\x27get\x27 expects the first argument to be a JSON object, got " ++
      debugValue otherJson))

/-- The big `match &node.kind` of `eval_node`, with the recursive calls on
children abstracted as `recur`.  Each Rust `return Err(..)` (and each `?`)
is an `early`; the value of the `result` expression is a `computed`. -/
def evalDispatch (ext : Ext)
    (recur : Node → Ctx → NodeCache → EvalResult × Ctx × NodeCache)
    (node : Node) (ctx : Ctx) (cache : NodeCache) : Flow :=
  match node.kind with
  | .Symbol name =>
    .computed
      (match assocLookup ctx name with
       | some v => .ok v
       | none => .error (.EvalError ("Undefined symbol: " ++ name)))
      ctx cache
  | .Number n => .computed (.ok (.Number n)) ctx cache
  | .String s => .computed (.ok (.String s)) ctx cache
  | .Definition =>
    (match node.children with
     | [_, nameNode, valueNode] =>
       (match nameNode.kind with
        | .Symbol varName =>
          (match recur valueNode ctx cache with
           | (.ok v, c, k) => .computed (.ok v) (assocInsert c varName v) k
           | (.error e, c, k) => .early (.error e) c k)
        | _ =>
          .early (.error (.EvalError
            "\x27def\x27 first argument must be a symbol representing the variable name"))
            ctx cache)
     | cs =>
       .early (.error (.EvalError
         ("\x27def\x27 expects 2 arguments (name, value), corresponding to 3 children (def, name, value). Got "
           ++ toString cs.length ++ " children.")))
         ctx cache)
  | .Addition =>
    (match node.children with
     | _ :: a1 :: args =>
       (match (a1 :: args).foldl (addStep recur) (.run 0 ctx cache) with
        | .run acc c k => .computed (.ok (.Number acc)) c k
        | .err e c k => .early (.error e) c k)
     | _ =>
       .early (.error (.EvalError "\x27+\x27 requires at least 1 argument")) ctx cache)
  | .Multiplication =>
    (match node.children with
     | _ :: a1 :: args =>
       (match (a1 :: args).foldl (mulStep recur) (.run 1 ctx cache) with
        | .run acc c k => .computed (.ok (.Number acc)) c k
        | .err e c k => .early (.error e) c k)
     | _ =>
       .early (.error (.EvalError "\x27*\x27 requires at least 1 argument")) ctx cache)
  | .HttpGet =>
    (match node.children with
     | [_, urlNode] =>
       (match recur urlNode ctx cache with
        | (.ok (.String url), c, k) =>
          (match ext.httpGet url with
           | .ok body => .computed (.ok (.String body)) c k
           | .error msg => .early (.error (.HttpError msg)) c k)
        | (.ok _, c, k) =>
          .computed (.error (.EvalError
            "\x27http.get\x27 expects its argument to evaluate to a string URL")) c k
        | (.error e, c, k) => .early (.error e) c k)
     | _ =>
       .early (.error (.EvalError
         "\x27http.get\x27 expects 1 argument (url), so 2 children in the node.")) ctx cache)
  | .JsonParse =>
    (match node.children with
     | [_, strNode] =>
       (match recur strNode ctx cache with
        | (.ok (.String s), c, k) =>
          (match ext.jsonFromStr s with
           | .ok j => .computed (.ok (.Json j)) c k
           | .error msg => .early (.error (.JsonError msg)) c k)
        | (.ok _, c, k) =>
          .computed (.error (.EvalError
            "\x27json.parse\x27 expects its argument to evaluate to a string")) c k
        | (.error e, c, k) => .early (.error e) c k)
     | _ =>
       .early (.error (.EvalError
         "\x27json.parse\x27 expects 1 argument (a string to parse)")) ctx cache)
  | .JsonGet =>
    (match node.children with
     | [_, objNode, keyNode] =>
       (match recur objNode ctx cache with
        | (.error e, c, k) => .early (.error e) c k
        | (.ok jv, c, k) =>
          (match recur keyNode c k with
           | (.error e, c2, k2) => .early (.error e) c2 k2
           | (.ok kv, c2, k2) => .computed (jsonGetResult jv kv) c2 k2))
     | _ =>
       .early (.error (.EvalError
         "\x27get\x27 expects 2 arguments (a JSON object, a string key)")) ctx cache)
  | .StringUpper =>
    (match node.children with
     | [_, strNode] =>
       (match recur strNode ctx cache with
        | (.ok (.String s), c, k) => .computed (.ok (.String s.toUpper)) c k
        | (.ok other, c, k) =>
          .computed (.error (.EvalError
            ("\x27str.upper\x27 expects its argument to evaluate to a string, got " ++
              debugValue other))) c k
        | (.error e, c, k) => .early (.error e) c k)
     | _ =>
       .early (.error (.EvalError
         "\x27str.upper\x27 expects 1 argument (a string)")) ctx cache)
  | .List =>
    (match node.children with
     | [] =>
       .early (.error (.EvalError
         "Cannot evaluate an empty list node directly. If it\x27s an empty S-expression \x27()\x27, its NodeKind should reflect that."))
         ctx cache
     | c0 :: _ =>
       (match c0.kind with
        | .Symbol funcName =>
          .computed (.error (.EvalError
            ("Attempted to call \x27" ++ funcName ++
             "\x27 as a function, but it\x27s either undefined or not a known built-in operation recognized by its specific NodeKind. Code: \x27"
             ++ node.code_snippet ++ "\x27"))) ctx cache
        | otherKind =>
          .computed (.error (.EvalError
            ("The first element of a list to be evaluated as a function call must be a symbol. Got: "
             ++ debugNodeKind otherKind ++ ". Code: \x27" ++ node.code_snippet ++ "\x27")))
            ctx cache))

/-- Whether the cache-bypass guard
`!matches!(&node.kind, NodeKind::Symbol(_))` fires. -/
def isSymbolKind : NodeKind → Bool
  | .Symbol _ => true
  | _ => false

/-- One `eval_node` body: the cache consultation (skipped for symbol
nodes), then the kind dispatch, then — only on the fall-through paths —
the final `cache.insert` of the computed result. -/
def evalStep (ext : Ext)
    (recur : Node → Ctx → NodeCache → EvalResult × Ctx × NodeCache)
    (node : Node) (ctx : Ctx) (cache : NodeCache) : EvalResult × Ctx × NodeCache :=
  let flow :=
    if isSymbolKind node.kind then evalDispatch ext recur node ctx cache
    else
      match NodeCache.get cache node.id with
      | some cached => .early cached ctx cache
      | none => evalDispatch ext recur node ctx cache
  match flow with
  | .early r c k => (r, c, k)
  | .computed r c k => (r, c, NodeCache.insert k node.id r)

/-- `eval_node`, made total by a recursion-depth fuel.  The Rust function
recurses only into strict subterms, so any fuel exceeding the node depth is
enough; the fuel-0 result is a model artifact that no theorem relies on. -/
def evalNode : Nat → Ext → Node → Ctx → NodeCache → EvalResult × Ctx × NodeCache
  | 0, _, _, ctx, cache => (.error (.EvalError "model recursion fuel exhausted"), ctx, cache)
  | fuel + 1, ext, node, ctx, cache => evalStep ext (evalNode fuel ext) node ctx cache

/-- A number-literal node as built by `ast_to_node_tree` / the parser
(snippet is the decimal rendering, no children). -/
def numLit (n : Int) : Node := mkNode (.Number n) (toString n) []

/-- A symbol node (snippet is the symbol text, no children). -/
def symNode (s : String) : Node := mkNode (.Symbol s) s []

/-- A definition node `(def NAME VALUE)` as built by the parser: children
are the head symbol, the name symbol, and the value expression. -/
def defNodeOf (snip : String) (name : String) (valueNode : Node) : Node :=
  mkNode .Definition snip [symNode "def", symNode name, valueNode]

/-- An addition node `(+ n1 .. nk)` over number literals. -/
def addNodeOf (snip : String) (ns : List Int) : Node :=
  mkNode .Addition snip (symNode "+" :: ns.map numLit)

/-- A multiplication node `(* n1 .. nk)` over number literals. -/
def mulNodeOf (snip : String) (ns : List Int) : Node :=
  mkNode .Multiplication snip (symNode "*" :: ns.map numLit)

/-- The value a symbol lookup produces. -/
def symbolLookupResult (ctx : Ctx) (name : String) : EvalResult :=
  match assocLookup ctx name with
  | some v => .ok v
  | none => .error (.EvalError ("Undefined symbol: " ++ name))

/-- A concrete oracle instance for closed computations; the claims quantify
over all oracles. -/
def ext0 : Ext :=
  ⟨fun _ => .error "network unavailable", fun _ => .error "json parsing unavailable"⟩

/-- JSON string escaping of one character as emitted by
`serde_json::to_string`. -/
def jsonEscapeChar (c : Char) : String :=
  if c.toNat = 34 then "\\\""
  else if c.toNat = 92 then "\\\\"
  else if c.toNat = 10 then "\\n"
  else if c.toNat = 13 then "\\r"
  else if c.toNat = 9 then "\\t"
  else if c.toNat < 32 then
    "\\u00" ++ String.mk [Nat.digitChar (c.toNat / 16), Nat.digitChar (c.toNat % 16)]
  else String.mk [c]

/-- A JSON string literal (quoted, escaped). -/
def jsonStrLit (s : String) : String :=
  String.mk [Char.ofNat 34] ++ String.join (s.data.map jsonEscapeChar) ++ String.mk [Char.ofNat 34]

/-- Compact JSON rendering of a document (`serde_json::to_string`). -/
def printJsonFuel : Nat → Json → String
  | 0, _ => ""
  | _ + 1, .null => "null"
  | _ + 1, .bool b => if b then "true" else "false"
  | _ + 1, .num n => toString n
  | _ + 1, .str s => jsonStrLit s
  | fuel + 1, .arr xs => "[" ++ String.intercalate "," (xs.map (printJsonFuel fuel)) ++ "]"
  | fuel + 1, .obj fs =>
    "\x7b" ++
      String.intercalate ","
        (fs.map (fun p => jsonStrLit p.1 ++ ":" ++ printJsonFuel fuel p.2)) ++
      "\x7d"

def printJson (j : Json) : String := printJsonFuel (jsonDepth j) j

/-- `serde_json::to_string` of a `Value`: externally tagged enum encoding. -/
def serdeToString : Value → String
  | .Number n => "\x7b\"Number\":" ++ toString n ++ "\x7d"
  | .String s => "\x7b\"String\":" ++ jsonStrLit s ++ "\x7d"
  | .Json j => "\x7b\"Json\":" ++ printJson j ++ "\x7d"

/-- Skip JSON whitespace. -/
def pSkipWs : List Char → List Char
  | [] => []
  | c :: cs =>
    if c.toNat = 32 ∨ c.toNat = 9 ∨ c.toNat = 10 ∨ c.toNat = 13 then pSkipWs cs else c :: cs

/-- Whether a character is a hex digit. -/
def isHexDigitChar (c : Char) : Bool :=
  c.isDigit || ('a' ≤ c && c ≤ 'f') || ('A' ≤ c && c ≤ 'F')

/-- Numeric value of a hex digit. -/
def hexVal (c : Char) : Nat :=
  if c.isDigit then c.toNat - 48
  else if 'a' ≤ c ∧ c ≤ 'f' then c.toNat - 87
  else if 'A' ≤ c ∧ c ≤ 'F' then c.toNat - 55
  else 0

/-- Parse the body of a JSON string literal (after the opening quote),
returning the decoded characters and the input after the closing quote. -/
def pStringChars : Nat → List Char → Option (List Char × List Char)
  | 0, _ => none
  | _ + 1, [] => none
  | fuel + 1, c :: cs =>
    if c.toNat = 34 then some ([], cs)
    else if c.toNat = 92 then
      match cs with
      | [] => none
      | e :: cs2 =>
        let decoded : Option (Char × List Char) :=
          if e.toNat = 34 then some (Char.ofNat 34, cs2)
          else if e.toNat = 92 then some (Char.ofNat 92, cs2)
          else if e.toNat = 47 then some (Char.ofNat 47, cs2)
          else if e = 'n' then some (Char.ofNat 10, cs2)
          else if e = 't' then some (Char.ofNat 9, cs2)
          else if e = 'r' then some (Char.ofNat 13, cs2)
          else if e = 'b' then some (Char.ofNat 8, cs2)
          else if e = 'f' then some (Char.ofNat 12, cs2)
          else if e = 'u' then
            match cs2 with
            | h1 :: h2 :: h3 :: h4 :: cs3 =>
              match isHexDigitChar h1, isHexDigitChar h2, isHexDigitChar h3, isHexDigitChar h4 with
              | true, true, true, true =>
                some (Char.ofNat
                  (hexVal h1 * 4096 + hexVal h2 * 256 + hexVal h3 * 16 + hexVal h4), cs3)
              | _, _, _, _ => none
            | _ => none
          else none
        match decoded with
        | some (d, cs2) =>
          match pStringChars fuel cs2 with
          | some (content, rest) => some (d :: content, rest)
          | none => none
        | none => none
    else
      match pStringChars fuel cs with
      | some (content, rest) => some (c :: content, rest)
      | none => none

/-- Parse a run of decimal digits with accumulator. -/
def pDigitsAux : List Char → Nat → Nat × List Char
  | [], acc => (acc, [])
  | c :: cs, acc =>
    if c.isDigit then pDigitsAux cs (acc * 10 + (c.toNat - 48)) else (acc, c :: cs)

/-- Parse a JSON integer (floating-point forms are rejected: the model's
`Json` carries `Int` numbers only, and the strings the model feeds to the
parser — the cache file entries written by `save_to_file` — contain only
integers). -/
def pNumber : List Char → Option (Int × List Char)
  | [] => none
  | c :: cs =>
    let (neg, cs2) := if c = '-' then (true, cs) else (false, c :: cs)
    match cs2 with
    | d :: _ =>
      if d.isDigit then
        let (m, rest) := pDigitsAux cs2 0
        match rest with
        | r :: _ =>
          if r = '.' ∨ r = 'e' ∨ r = 'E' then none
          else some ((if neg then -(m : Int) else (m : Int)), rest)
        | [] => some ((if neg then -(m : Int) else (m : Int)), [])
      else none
    | [] => none

/-- Check that the input starts with the given characters and consume them. -/
def pExpect : List Char → List Char → Option (List Char)
  | [], cs => some cs
  | e :: es, c :: cs => if c = e then pExpect es cs else none
  | _ :: _, [] => none

mutual

/-- Recursive-descent JSON parser (`serde_json::from_str`), fuel-indexed. -/
def pJson : Nat → List Char → Option (Json × List Char)
  | 0, _ => none
  | fuel + 1, cs =>
    match pSkipWs cs with
    | [] => none
    | c :: rest =>
      if c.toNat = 123 then
        match pSkipWs rest with
        | r :: rest2 =>
          if r.toNat = 125 then some (.obj [], rest2)
          else pMembers fuel (r :: rest2)
        | [] => none
      else if c.toNat = 91 then
        match pSkipWs rest with
        | r :: rest2 =>
          if r.toNat = 93 then some (.arr [], rest2)
          else pElems fuel (r :: rest2)
        | [] => none
      else if c.toNat = 34 then
        match pStringChars (rest.length + 1) rest with
        | some (content, rest2) => some (.str (String.mk content), rest2)
        | none => none
      else if c = 't' then
        (pExpect "rue".data rest).map (fun r => (.bool true, r))
      else if c = 'f' then
        (pExpect "alse".data rest).map (fun r => (.bool false, r))
      else if c = 'n' then
        (pExpect "ull".data rest).map (fun r => (.null, r))
      else if c = '-' ∨ c.isDigit then
        (pNumber (c :: rest)).map (fun p => (.num p.1, p.2))
      else none

/-- Parse one or more comma-separated object members up to the closing
brace. -/
def pMembers : Nat → List Char → Option (Json × List Char)
  | 0, _ => none
  | fuel + 1, cs =>
    match pSkipWs cs with
    | q :: rest =>
      if q.toNat = 34 then
        match pStringChars (rest.length + 1) rest with
        | some (keyChars, rest2) =>
          (match pSkipWs rest2 with
           | colon :: rest3 =>
             if colon = ':' then
               match pJson fuel rest3 with
               | some (v, rest4) =>
                 (match pSkipWs rest4 with
                  | sep :: rest5 =>
                    if sep = ',' then
                      match pMembers fuel rest5 with
                      | some (.obj fields, rest6) =>
                        some (.obj ((String.mk keyChars, v) :: fields), rest6)
                      | _ => none
                    else if sep.toNat = 125 then
                      some (.obj [(String.mk keyChars, v)], rest5)
                    else none
                  | [] => none)
               | none => none
             else none
           | [] => none)
        | none => none
      else none
    | [] => none

/-- Parse one or more comma-separated array elements up to the closing
bracket. -/
def pElems : Nat → List Char → Option (Json × List Char)
  | 0, _ => none
  | fuel + 1, cs =>
    match pJson fuel cs with
    | some (v, rest) =>
      (match pSkipWs rest with
       | sep :: rest2 =>
         if sep = ',' then
           match pElems fuel rest2 with
           | some (.arr elems, rest3) => some (.arr (v :: elems), rest3)
           | _ => none
         else if sep.toNat = 93 then some (.arr [v], rest2)
         else none
       | [] => none)
    | none => none

end

/-- Parse a complete JSON document (trailing whitespace allowed). -/
def parseJsonText (s : String) : Option Json :=
  match pJson (2 * s.data.length + 4) s.data with
  | some (j, rest) => if pSkipWs rest = [] then some j else none
  | none => none

/-- Decode the externally tagged `Value` enum encoding. -/
def valueFromTagged : Json → Option Value
  | .obj [("Number", .num n)] => some (.Number n)
  | .obj [("String", .str s)] => some (.String s)
  | .obj [("Json", j)] => some (.Json j)
  | _ => none

/-- `serde_json::from_str::<Value>`. -/
def parseValueText (s : String) : Option Value :=
  (parseJsonText s).bind valueFromTagged

/-- One cache entry as written by `NodeCache::save_to_file`: `Ok` values are
serialised with serde, errors are rendered as `"Error: "` plus the `Display`
text. -/
def saveEntry : EvalResult → String
  | .ok v => serdeToString v
  | .error e => "Error: " ++ displayError e

/-- `str::trim_start_matches`: repeatedly strip the prefix `"Error: "`. -/
def stripErrorLoop : Nat → List Char → List Char
  | 0, cs => cs
  | n + 1, cs =>
    if cs.take 7 = "Error: ".data then stripErrorLoop n (cs.drop 7) else cs

def stripErrorRepeated (s : String) : String :=
  String.mk (stripErrorLoop s.data.length s.data)

/-- One cache entry as read back by `NodeCache::load_from_file`: strings
that parse as a serialised `Value` become `Ok`; everything else becomes an
`EvalError` carrying the string with its `"Error: "` prefixes stripped. -/
def loadEntryStr (s : String) : EvalResult :=
  match parseValueText s with
  | some v => .ok v
  | none => .error (.EvalError (stripErrorRepeated s))

/-- `NodeCache::save_to_file`: the cache file content, keyed by node id.
The hex encoding of ids is a bijection on 32-byte digests and is modelled
as the identity; the 32-byte validity check on load always passes for ids
written by save. -/
def saveCacheFile (c : NodeCache) : List (NodeId × String) :=
  c.values.map (fun p => (p.1, saveEntry p.2))

/-- `NodeCache::load_from_file`: insert every entry directly into `values`
(not via `NodeCache::insert`, so the changed set is untouched) and record
it as previously seen. -/
def loadCacheFromFile (entries : List (NodeId × String)) (c : NodeCache) : NodeCache :=
  entries.foldl
    (fun acc p =>
      { acc with
        values := assocInsert acc.values p.1 (loadEntryStr p.2)
        previously_seen := setInsert acc.previously_seen p.1 })
    c

/-- The evaluation loop of `run_once`: evaluate each root in order under
the shared context and cache (binding installation happens inside
`eval_node`; the loop itself only threads state). -/
def runSequence (fuel : Nat) (ext : Ext) (roots : List Node) (ctx : Ctx)
    (cache : NodeCache) : Ctx × NodeCache :=
  roots.foldl
    (fun st root =>
      let r := evalNode fuel ext root st.1 st.2
      (r.2.1, r.2.2))
    (ctx, cache)

/-- `run_once` (without file I/O and rendering): clear the transient cache
state, then evaluate the sequence. -/
def runOnce (fuel : Nat) (ext : Ext) (roots : List Node) (ctx : Ctx)
    (cache : NodeCache) : Ctx × NodeCache :=
  runSequence fuel ext roots ctx (prepareForEvaluation cache)

/-- Modelled from the spec: src/src/parser.rs constructs `NodeKind::Let`
for `(let ..)` lists, but the `NodeKind` enum in src/src/main.rs has no
`Let` variant and `eval_node` has no `Let` arm — the evaluator for let
forms is code of this repository missing from src/.  The following small
evaluator models §4.3 and §4.4 of the spec for the fragment that the
let-expression semantics needs: environments are frame chains binding
names to the node id of the defining value expression, symbols resolve to
that id and evaluate the defining node, and
`(let NAME VALUE BODY)` evaluates VALUE in the current environment,
evaluates BODY in the environment extended with NAME bound to id(VALUE),
and returns the body's result, leaving the outer environment unchanged. -/
inductive SpecNodeKind where
  | symbol : String → SpecNodeKind
  | number : Int → SpecNodeKind
  | letExpr : SpecNodeKind
  | addition : SpecNodeKind

/-- Modelled from the spec: nodes for the spec evaluator, hashed by the
same scheme as `Node` with a distinct ASCII tag per kind (§4.1); `"Let"`
is the tag of the let kind. -/
inductive SpecNode where
  | mk : NodeId → SpecNodeKind → String → List SpecNode → SpecNode

def SpecNode.id : SpecNode → NodeId
  | .mk i _ _ _ => i

def SpecNode.kind : SpecNode → SpecNodeKind
  | .mk _ k _ _ => k

def SpecNode.children : SpecNode → List SpecNode
  | .mk _ _ _ cs => cs

def specKindTag : SpecNodeKind → List UInt8
  | .symbol s => utf8Bytes "Symbol:" ++ utf8Bytes s
  | .number n => utf8Bytes "Number:" ++ i64LeBytes n
  | .letExpr => utf8Bytes "Let"
  | .addition => utf8Bytes "Addition"

def mkSpecNode (kind : SpecNodeKind) (code : String) (children : List SpecNode) : SpecNode :=
  .mk (specKindTag kind ++ utf8Bytes code ++ (children.map SpecNode.id).flatten)
    kind code children

/-- Modelled from the spec: an environment frame chain binding names to
defining node ids; extension conses a binding, resolution walks from the
innermost frame outward (§4.3). -/
abbrev SpecEnv := List (String × NodeId)

def resolveEnv (env : SpecEnv) (name : String) : Option NodeId :=
  assocLookup env name

/-- Modelled from the spec: the `nodes` map (§3, Evaluation cache) giving
the node for a resolved id. -/
abbrev SpecNodes := List (NodeId × SpecNode)

/-- Modelled from the spec: `eval(node, env)` of §4.4 for the fragment
symbol / integer literal / let-expression / addition, fuel-indexed because
symbol evaluation recurses into the defining node. -/
def specEval : Nat → SpecNodes → SpecNode → SpecEnv → Except Error Value
  | 0, _, _, _ => .error (.EvalError "recursion limit")
  | fuel + 1, nodes, node, env =>
    match node.kind with
    | .number n => .ok (.Number n)
    | .symbol s =>
      (match resolveEnv env s with
       | none => .error (.EvalError ("Undefined symbol: " ++ s))
       | some nid =>
         match assocLookup nodes nid with
         | some dn => specEval fuel nodes dn env
         | none => .error (.EvalError ("Defining node not found: " ++ s)))
    | .letExpr =>
      (match node.children with
       | [_, nameNode, valueNode, bodyNode] =>
         (match nameNode.kind with
          | .symbol nm =>
            (match specEval fuel nodes valueNode env with
             | .ok _ => specEval fuel nodes bodyNode ((nm, valueNode.id) :: env)
             | .error e => .error e)
          | _ => .error (.EvalError "let name must be a symbol"))
       | _ => .error (.EvalError "let expects 3 arguments (name, value, body)"))
    | .addition =>
      (match node.children with
       | _ :: a1 :: args =>
         (match
            (a1 :: args).foldl
              (fun (st : Except Error Int) a =>
                match st with
                | .error e => .error e
                | .ok acc =>
                  match specEval fuel nodes a env with
                  | .ok (.Number n) => .ok (acc + n)
                  | .ok _ => .error (.EvalError "+ requires number arguments")
                  | .error e => .error e)
              (Except.ok (0 : Int)) with
          | .ok acc => .ok (.Number acc)
          | .error e => .error e)
       | _ => .error (.EvalError "+ requires at least 1 argument"))

/-- A let-expression node `(let NAME VALUE BODY)` with the head symbol as
children[0], per §3. -/
def letNodeOf (snip : String) (name : String) (valueNode bodyNode : SpecNode) : SpecNode :=
  mkSpecNode .letExpr snip
    [mkSpecNode (.symbol "let") "let" [], mkSpecNode (.symbol name) name [],
     valueNode, bodyNode]

/-- The nodes of the spec's end-to-end scenario 6,
`(let a 1 (let a 2 (+ a a)))`. -/
def specNum1 : SpecNode := mkSpecNode (.number 1) "1" []

def specNum2 : SpecNode := mkSpecNode (.number 2) "2" []

def specSymA : SpecNode := mkSpecNode (.symbol "a") "a" []

def specPlusAA : SpecNode :=
  mkSpecNode .addition "(+ a a)" [mkSpecNode (.symbol "+") "+" [], specSymA, specSymA]

def specInnerLet : SpecNode := letNodeOf "(let a 2 (+ a a))" "a" specNum2 specPlusAA

def specOuterLet : SpecNode := letNodeOf "(let a 1 (let a 2 (+ a a)))" "a" specNum1 specInnerLet

def specExampleNodes : SpecNodes :=
  [(specNum1.id, specNum1), (specNum2.id, specNum2)]

end Garden

namespace Garden

/-! Helper lemmas (shared; none of them is a claim theorem). -/

theorem assocLookup_insert_self {κ α : Type} [DecidableEq κ]
    (l : List (κ × α)) (k : κ) (v : α) :
    assocLookup (assocInsert l k v) k = some v := by
  induction l with
  | nil => simp [assocInsert, assocLookup]
  | cons p rest ih =>
    rcases p with ⟨k1, v1⟩
    by_cases h : k1 = k
    · subst h
      simp [assocInsert, assocLookup]
    · simp [assocInsert, assocLookup, h, ih]

theorem assocLookup_insert_ne {κ α : Type} [DecidableEq κ]
    (l : List (κ × α)) (k k' : κ) (v : α) (h : k' ≠ k) :
    assocLookup (assocInsert l k v) k' = assocLookup l k' := by
  have hne : ¬ k = k' := fun e => h e.symm
  induction l with
  | nil =>
    simp only [assocInsert, assocLookup]
    rw [if_neg hne]
  | cons p rest ih =>
    rcases p with ⟨k1, v1⟩
    by_cases hk : k1 = k
    · subst hk
      simp only [assocInsert, if_pos rfl, assocLookup]
      rw [if_neg hne, if_neg hne]
    · simp only [assocInsert, if_neg hk, assocLookup]
      by_cases hk' : k1 = k'
      · rw [if_pos hk', if_pos hk']
      · rw [if_neg hk', if_neg hk', ih]

theorem assocLookup_isSome_iff {κ α : Type} [DecidableEq κ]
    (l : List (κ × α)) (k : κ) :
    (assocLookup l k).isSome = true ↔ ∃ p ∈ l, p.1 = k := by
  induction l with
  | nil => simp [assocLookup]
  | cons p rest ih =>
    rcases p with ⟨k1, v1⟩
    by_cases h : k1 = k
    · subst h
      simp [assocLookup]
    · simp only [assocLookup, if_neg h, ih]
      constructor
      · rintro ⟨q, hq, hqk⟩
        exact ⟨q, List.mem_cons_of_mem _ hq, hqk⟩
      · rintro ⟨q, hq, hqk⟩
        rcases List.mem_cons.mp hq with hq1 | hq2
        · subst hq1
          exact absurd hqk h
        · exact ⟨q, hq2, hqk⟩

theorem mem_setInsert_self (l : List NodeId) (id : NodeId) :
    id ∈ setInsert l id := by
  unfold setInsert
  split
  · assumption
  · exact List.mem_cons_self _ _

theorem NodeCache.get_insert_self (c : NodeCache) (id : NodeId) (r : EvalResult) :
    NodeCache.get (c.insert id r) id = some r := by
  unfold NodeCache.get NodeCache.insert
  exact assocLookup_insert_self _ _ _

theorem NodeCache.get_insert_ne (c : NodeCache) (id id' : NodeId) (r : EvalResult)
    (h : id' ≠ id) :
    NodeCache.get (c.insert id r) id' = NodeCache.get c id' := by
  unfold NodeCache.get NodeCache.insert
  exact assocLookup_insert_ne _ _ _ _ h

theorem evalNode_succ (fuel : Nat) (ext : Ext) (node : Node) (ctx : Ctx) (cache : NodeCache) :
    evalNode (fuel + 1) ext node ctx cache = evalStep ext (evalNode fuel ext) node ctx cache := rfl

theorem evalStep_cache_hit (ext : Ext)
    (recur : Node → Ctx → NodeCache → EvalResult × Ctx × NodeCache)
    (node : Node) (ctx : Ctx) (cache : NodeCache) (r : EvalResult)
    (hsym : isSymbolKind node.kind = false)
    (hget : NodeCache.get cache node.id = some r) :
    evalStep ext recur node ctx cache = (r, ctx, cache) := by
  unfold evalStep
  rw [hsym, hget]
  simp

theorem evalNode_cache_hit (fuel : Nat) (ext : Ext) (node : Node) (ctx : Ctx)
    (cache : NodeCache) (r : EvalResult)
    (hsym : isSymbolKind node.kind = false)
    (hget : NodeCache.get cache node.id = some r) :
    evalNode (fuel + 1) ext node ctx cache = (r, ctx, cache) :=
  evalStep_cache_hit ext (evalNode fuel ext) node ctx cache r hsym hget

theorem evalStep_symbol (ext : Ext)
    (recur : Node → Ctx → NodeCache → EvalResult × Ctx × NodeCache)
    (node : Node) (ctx : Ctx) (cache : NodeCache) (name : String)
    (hk : node.kind = .Symbol name) :
    evalStep ext recur node ctx cache =
      (symbolLookupResult ctx name, ctx,
        NodeCache.insert cache node.id (symbolLookupResult ctx name)) := by
  rcases node with ⟨i, k, s, cs⟩
  simp only [Node.kind] at hk
  subst hk
  unfold evalStep evalDispatch symbolLookupResult
  simp only [Node.kind, isSymbolKind]
  rcases h : assocLookup ctx name with _ | v <;> simp [h]

theorem evalNode_symbol (fuel : Nat) (ext : Ext) (node : Node) (ctx : Ctx)
    (cache : NodeCache) (name : String) (hk : node.kind = .Symbol name) :
    evalNode (fuel + 1) ext node ctx cache =
      (symbolLookupResult ctx name, ctx,
        NodeCache.insert cache node.id (symbolLookupResult ctx name)) :=
  evalStep_symbol ext (evalNode fuel ext) node ctx cache name hk

theorem evalStep_miss (ext : Ext)
    (recur : Node → Ctx → NodeCache → EvalResult × Ctx × NodeCache)
    (node : Node) (ctx : Ctx) (cache : NodeCache)
    (hsym : isSymbolKind node.kind = false)
    (hget : NodeCache.get cache node.id = none) :
    evalStep ext recur node ctx cache =
      (match evalDispatch ext recur node ctx cache with
       | .early r c k => (r, c, k)
       | .computed r c k => (r, c, NodeCache.insert k node.id r)) := by
  unfold evalStep
  rw [hsym, hget]
  simp

theorem evalDispatch_number (ext : Ext)
    (recur : Node → Ctx → NodeCache → EvalResult × Ctx × NodeCache)
    (node : Node) (ctx : Ctx) (cache : NodeCache) (n : Int)
    (hk : node.kind = .Number n) :
    evalDispatch ext recur node ctx cache = .computed (.ok (.Number n)) ctx cache := by
  rcases node with ⟨i, k, s, cs⟩
  simp only [Node.kind] at hk
  subst hk
  rfl

theorem evalNode_numLit (fuel : Nat) (ext : Ext) (n : Int) (ctx : Ctx) (cache : NodeCache) :
    evalNode (fuel + 1) ext (numLit n) ctx cache =
      (match NodeCache.get cache (numLit n).id with
       | some r => (r, ctx, cache)
       | none =>
         (.ok (.Number n), ctx, NodeCache.insert cache (numLit n).id (.ok (.Number n)))) := by
  rw [evalNode_succ]
  rcases h : NodeCache.get cache (numLit n).id with _ | r
  · rw [evalStep_miss ext (evalNode fuel ext) (numLit n) ctx cache rfl h,
      evalDispatch_number ext (evalNode fuel ext) (numLit n) ctx cache n rfl]
  · exact evalStep_cache_hit ext (evalNode fuel ext) (numLit n) ctx cache r rfl h

/-- Evaluating a number literal never changes the context. -/
theorem evalNode_numLit_ctx (fuel : Nat) (ext : Ext) (n : Int) (ctx : Ctx) (cache : NodeCache) :
    (evalNode (fuel + 1) ext (numLit n) ctx cache).2.1 = ctx := by
  rw [evalNode_numLit]
  rcases h : NodeCache.get cache (numLit n).id with _ | r <;> simp [h]

/-- Every `early` flow out of the kind dispatch carries an error: the Rust
`return` statements inside the match arms all return `Err`. -/
theorem evalDispatch_early_error (ext : Ext)
    (recur : Node → Ctx → NodeCache → EvalResult × Ctx × NodeCache)
    (node : Node) (ctx : Ctx) (cache : NodeCache) (r : EvalResult) (c : Ctx)
    (k : NodeCache)
    (h : evalDispatch ext recur node ctx cache = .early r c k) :
    ∃ e, r = .error e := by
  unfold evalDispatch at h
  repeat' split at h
  all_goals first
    | (injection h
       done)
    | (injection h with h1 h2 h3
       exact ⟨_, h1.symm⟩)

theorem evalDispatch_defNodeOf (ext : Ext)
    (recur : Node → Ctx → NodeCache → EvalResult × Ctx × NodeCache)
    (snip name : String) (valueNode : Node) (ctx : Ctx) (cache : NodeCache) :
    evalDispatch ext recur (defNodeOf snip name valueNode) ctx cache =
      (match recur valueNode ctx cache with
       | (.ok v, c, k) => .computed (.ok v) (assocInsert c name v) k
       | (.error e, c, k) => .early (.error e) c k) := rfl

/-- The argument loop of `+` over distinct uncached number literals:
each literal misses the cache, evaluates to its value, and is written
back; the context never changes. -/
theorem addFold_lits (fuel : Nat) (ext : Ext) :
    ∀ (xs : List Int) (acc : Int) (ctx : Ctx) (cache : NodeCache),
      (xs.map fun x => (numLit x).id).Nodup →
      (∀ x ∈ xs, NodeCache.get cache (numLit x).id = none) →
      ∃ k', (xs.map numLit).foldl (addStep (evalNode (fuel + 1) ext)) (.run acc ctx cache)
          = .run (xs.foldl (fun a x => wrapI64 (a + x)) acc) ctx k' := by
  intro xs
  induction xs with
  | nil =>
    intro acc ctx cache _ _
    exact ⟨cache, rfl⟩
  | cons x rest ih =>
    intro acc ctx cache hnodup hmiss
    have hx : NodeCache.get cache (numLit x).id = none :=
      hmiss x (List.mem_cons_self _ _)
    have hstep : addStep (evalNode (fuel + 1) ext) (.run acc ctx cache) (numLit x)
        = .run (wrapI64 (acc + x)) ctx
            (NodeCache.insert cache (numLit x).id (.ok (.Number x))) := by
      simp only [addStep]
      rw [evalNode_numLit, hx]
    rw [List.map_cons, List.foldl_cons, hstep, List.foldl_cons]
    obtain ⟨hxid, htail⟩ := List.nodup_cons.mp hnodup
    exact ih (wrapI64 (acc + x)) ctx _ htail (by
      intro y hy
      have hne : (numLit y).id ≠ (numLit x).id := by
        intro he
        have hmem := List.mem_map_of_mem (fun z => (numLit z).id) hy
        rw [show (fun z => (numLit z).id) y = (numLit x).id from he] at hmem
        exact hxid hmem
      rw [NodeCache.get_insert_ne _ _ _ _ hne]
      exact hmiss y (List.mem_cons_of_mem _ hy))

/-- The argument loop of `*` over distinct uncached number literals. -/
theorem mulFold_lits (fuel : Nat) (ext : Ext) :
    ∀ (xs : List Int) (acc : Int) (ctx : Ctx) (cache : NodeCache),
      (xs.map fun x => (numLit x).id).Nodup →
      (∀ x ∈ xs, NodeCache.get cache (numLit x).id = none) →
      ∃ k', (xs.map numLit).foldl (mulStep (evalNode (fuel + 1) ext)) (.run acc ctx cache)
          = .run (xs.foldl (fun a x => wrapI64 (a * x)) acc) ctx k' := by
  intro xs
  induction xs with
  | nil =>
    intro acc ctx cache _ _
    exact ⟨cache, rfl⟩
  | cons x rest ih =>
    intro acc ctx cache hnodup hmiss
    have hx : NodeCache.get cache (numLit x).id = none :=
      hmiss x (List.mem_cons_self _ _)
    have hstep : mulStep (evalNode (fuel + 1) ext) (.run acc ctx cache) (numLit x)
        = .run (wrapI64 (acc * x)) ctx
            (NodeCache.insert cache (numLit x).id (.ok (.Number x))) := by
      simp only [mulStep]
      rw [evalNode_numLit, hx]
    rw [List.map_cons, List.foldl_cons, hstep, List.foldl_cons]
    obtain ⟨hxid, htail⟩ := List.nodup_cons.mp hnodup
    exact ih (wrapI64 (acc * x)) ctx _ htail (by
      intro y hy
      have hne : (numLit y).id ≠ (numLit x).id := by
        intro he
        have hmem := List.mem_map_of_mem (fun z => (numLit z).id) hy
        rw [show (fun z => (numLit z).id) y = (numLit x).id from he] at hmem
        exact hxid hmem
      rw [NodeCache.get_insert_ne _ _ _ _ hne]
      exact hmiss y (List.mem_cons_of_mem _ hy))

theorem NodeCache.get_prepare (c : NodeCache) (id : NodeId) :
    NodeCache.get (prepareForEvaluation c) id = NodeCache.get c id := rfl

theorem prepare_changed_nil (c : NodeCache) :
    (prepareForEvaluation c).changed_nodes = [] := rfl

theorem loadCacheFromFile_cons (p : NodeId × String) (rest : List (NodeId × String))
    (init : NodeCache) :
    loadCacheFromFile (p :: rest) init =
      loadCacheFromFile rest
        { init with
          values := assocInsert init.values p.1 (loadEntryStr p.2)
          previously_seen := setInsert init.previously_seen p.1 } := rfl

theorem get_loadCacheFromFile_isSome (entries : List (NodeId × String)) :
    ∀ (init : NodeCache) (id : NodeId),
      (NodeCache.get (loadCacheFromFile entries init) id).isSome = true
        ↔ ((NodeCache.get init id).isSome = true ∨ ∃ p ∈ entries, p.1 = id) := by
  induction entries with
  | nil =>
    intro init id
    simp [loadCacheFromFile]
  | cons p rest ih =>
    intro init id
    rw [loadCacheFromFile_cons, ih]
    by_cases hid : id = p.1
    · subst hid
      have hself : NodeCache.get
          { init with
            values := assocInsert init.values p.1 (loadEntryStr p.2)
            previously_seen := setInsert init.previously_seen p.1 } p.1
          = some (loadEntryStr p.2) := assocLookup_insert_self _ _ _
      constructor
      · intro _
        exact Or.inr ⟨p, List.mem_cons_self _ _, rfl⟩
      · intro _
        exact Or.inl (by rw [hself]; rfl)
    · have hne : NodeCache.get
          { init with
            values := assocInsert init.values p.1 (loadEntryStr p.2)
            previously_seen := setInsert init.previously_seen p.1 } id
          = NodeCache.get init id := assocLookup_insert_ne _ _ _ _ hid
      rw [hne]
      constructor
      · rintro (h1 | ⟨q, hq, hqid⟩)
        · exact Or.inl h1
        · exact Or.inr ⟨q, List.mem_cons_of_mem _ hq, hqid⟩
      · rintro (h1 | ⟨q, hq, hqid⟩)
        · exact Or.inl h1
        · rcases List.mem_cons.mp hq with hq1 | hq2
          · subst hq1
            exact absurd hqid.symm hid
          · exact Or.inr ⟨q, hq2, hqid⟩

theorem saveCacheFile_keys (c : NodeCache) (id : NodeId) :
    (∃ p ∈ saveCacheFile c, p.1 = id) ↔ ∃ q ∈ c.values, q.1 = id := by
  unfold saveCacheFile
  constructor
  · rintro ⟨p, hp, hpid⟩
    obtain ⟨q, hq, hqe⟩ := List.mem_map.mp hp
    exact ⟨q, hq, by rw [← hqe] at hpid; exact hpid⟩
  · rintro ⟨q, hq, hqid⟩
    exact ⟨(q.1, saveEntry q.2), List.mem_map_of_mem _ hq, hqid⟩

theorem runSequence_cons (fuel : Nat) (ext : Ext) (root : Node) (rest : List Node)
    (ctx : Ctx) (cache : NodeCache) :
    runSequence fuel ext (root :: rest) ctx cache =
      runSequence fuel ext rest (evalNode fuel ext root ctx cache).2.1
        (evalNode fuel ext root ctx cache).2.2 := rfl

/-- When every root is a non-symbol node whose id is cached, the whole
sequence is served by cache hits and neither the context nor the cache
changes. -/
theorem runSequence_all_hits (fuel : Nat) (ext : Ext) :
    ∀ (roots : List Node) (ctx : Ctx) (cache : NodeCache),
      (∀ r ∈ roots, isSymbolKind r.kind = false ∧ (NodeCache.get cache r.id).isSome = true) →
      runSequence (fuel + 1) ext roots ctx cache = (ctx, cache) := by
  intro roots
  induction roots with
  | nil => intro ctx cache _; rfl
  | cons root rest ih =>
    intro ctx cache h
    obtain ⟨hsym, hsome⟩ := h root (List.mem_cons_self _ _)
    obtain ⟨r, hr⟩ := Option.isSome_iff_exists.mp hsome
    have heval := evalNode_cache_hit fuel ext root ctx cache r hsym hr
    rw [runSequence_cons, heval]
    exact ih ctx cache (fun q hq => h q (List.mem_cons_of_mem _ hq))

/-- When the dispatch runs (symbol node, or cache miss), `evalStep` is the
dispatch flow followed by the conditional write-back. -/
theorem evalStep_no_hit (ext : Ext)
    (recur : Node → Ctx → NodeCache → EvalResult × Ctx × NodeCache)
    (node : Node) (ctx : Ctx) (cache : NodeCache)
    (h : isSymbolKind node.kind = true ∨ NodeCache.get cache node.id = none) :
    evalStep ext recur node ctx cache =
      (match evalDispatch ext recur node ctx cache with
       | .early r c k => (r, c, k)
       | .computed r c k => (r, c, NodeCache.insert k node.id r)) := by
  rcases h with h | h
  · unfold evalStep
    rw [h]
    simp
  · rcases hsym : isSymbolKind node.kind with _ | _
    · exact evalStep_miss ext recur node ctx cache hsym h
    · unfold evalStep
      rw [hsym]
      simp

/-- Evaluating an addition node with fewer than two children (head symbol
plus zero arguments) on a cache miss yields the arity error. -/
theorem evalNode_add_zero_args (fuel : Nat) (ext : Ext) (snip : String)
    (children : List Node) (ctx : Ctx) (cache : NodeCache)
    (hlen : children.length < 2)
    (hmiss : NodeCache.get cache (mkNode .Addition snip children).id = none) :
    (evalNode (fuel + 1) ext (mkNode .Addition snip children) ctx cache).1
      = .error (.EvalError "\x27+\x27 requires at least 1 argument") := by
  rw [evalNode_succ,
    evalStep_miss ext (evalNode fuel ext) (mkNode .Addition snip children) ctx cache rfl hmiss]
  rcases children with _ | ⟨c0, _ | ⟨c1, rest⟩⟩
  · rfl
  · rfl
  · simp only [List.length_cons] at hlen
    omega

theorem evalNode_mul_zero_args (fuel : Nat) (ext : Ext) (snip : String)
    (children : List Node) (ctx : Ctx) (cache : NodeCache)
    (hlen : children.length < 2)
    (hmiss : NodeCache.get cache (mkNode .Multiplication snip children).id = none) :
    (evalNode (fuel + 1) ext (mkNode .Multiplication snip children) ctx cache).1
      = .error (.EvalError "\x27*\x27 requires at least 1 argument") := by
  rw [evalNode_succ,
    evalStep_miss ext (evalNode fuel ext) (mkNode .Multiplication snip children) ctx cache rfl
      hmiss]
  rcases children with _ | ⟨c0, _ | ⟨c1, rest⟩⟩
  · rfl
  · rfl
  · simp only [List.length_cons] at hlen
    omega

/-- Evaluating `(+ n1 .. nk)` over distinct uncached number literals on a
cache miss returns their left-folded sum. -/
theorem evalNode_add_lits (fuel : Nat) (ext : Ext) (snip : String) (ns : List Int)
    (ctx : Ctx) (cache : NodeCache)
    (hne : ns ≠ [])
    (hnodup : (ns.map fun x => (numLit x).id).Nodup)
    (hmissNode : NodeCache.get cache (addNodeOf snip ns).id = none)
    (hmiss : ∀ x ∈ ns, NodeCache.get cache (numLit x).id = none) :
    (evalNode (fuel + 2) ext (addNodeOf snip ns) ctx cache).1
      = .ok (.Number (ns.foldl (fun a x => wrapI64 (a + x)) 0)) := by
  rcases ns with _ | ⟨x, rest⟩
  · exact absurd rfl hne
  rw [evalNode_succ,
    evalStep_miss ext (evalNode (fuel + 1) ext) (addNodeOf snip (x :: rest)) ctx cache rfl
      hmissNode]
  have hd : evalDispatch ext (evalNode (fuel + 1) ext) (addNodeOf snip (x :: rest)) ctx cache
      = (match ((x :: rest).map numLit).foldl
              (addStep (evalNode (fuel + 1) ext)) (.run 0 ctx cache) with
         | .run acc c k => .computed (.ok (.Number acc)) c k
         | .err e c k => .early (.error e) c k) := rfl
  obtain ⟨k', hk'⟩ := addFold_lits fuel ext (x :: rest) 0 ctx cache hnodup hmiss
  rw [hd, hk']

/-- Evaluating `(* n1 .. nk)` over distinct uncached number literals on a
cache miss returns their left-folded product. -/
theorem evalNode_mul_lits (fuel : Nat) (ext : Ext) (snip : String) (ns : List Int)
    (ctx : Ctx) (cache : NodeCache)
    (hne : ns ≠ [])
    (hnodup : (ns.map fun x => (numLit x).id).Nodup)
    (hmissNode : NodeCache.get cache (mulNodeOf snip ns).id = none)
    (hmiss : ∀ x ∈ ns, NodeCache.get cache (numLit x).id = none) :
    (evalNode (fuel + 2) ext (mulNodeOf snip ns) ctx cache).1
      = .ok (.Number (ns.foldl (fun a x => wrapI64 (a * x)) 1)) := by
  rcases ns with _ | ⟨x, rest⟩
  · exact absurd rfl hne
  rw [evalNode_succ,
    evalStep_miss ext (evalNode (fuel + 1) ext) (mulNodeOf snip (x :: rest)) ctx cache rfl
      hmissNode]
  have hd : evalDispatch ext (evalNode (fuel + 1) ext) (mulNodeOf snip (x :: rest)) ctx cache
      = (match ((x :: rest).map numLit).foldl
              (mulStep (evalNode (fuel + 1) ext)) (.run 1 ctx cache) with
         | .run acc c k => .computed (.ok (.Number acc)) c k
         | .err e c k => .early (.error e) c k) := rfl
  obtain ⟨k', hk'⟩ := mulFold_lits fuel ext (x :: rest) 1 ctx cache hnodup hmiss
  rw [hd, hk']

/-- Evaluating `(def name VALUE)` on a cache miss when the value expression
succeeds: the binding is installed by the evaluation itself, the value is
returned, and the result is written back under the definition node id. -/
theorem evalNode_defNodeOf (fuel : Nat) (ext : Ext) (snip name : String)
    (valueNode : Node) (ctx : Ctx) (cache : NodeCache) (v : Value) (c : Ctx)
    (k : NodeCache)
    (hmiss : NodeCache.get cache (defNodeOf snip name valueNode).id = none)
    (hval : evalNode fuel ext valueNode ctx cache = (.ok v, c, k)) :
    evalNode (fuel + 1) ext (defNodeOf snip name valueNode) ctx cache =
      (.ok v, assocInsert c name v,
        NodeCache.insert k (defNodeOf snip name valueNode).id (.ok v)) := by
  rw [evalNode_succ,
    evalStep_miss ext (evalNode fuel ext) (defNodeOf snip name valueNode) ctx cache rfl hmiss,
    evalDispatch_defNodeOf, hval]

/-- Any `Ok` result that `evalStep` produces on a non-hit path is written
into the cache under the node id before returning. -/
theorem evalStep_writeback_ok (ext : Ext)
    (recur : Node → Ctx → NodeCache → EvalResult × Ctx × NodeCache)
    (node : Node) (ctx : Ctx) (cache : NodeCache)
    (hget : NodeCache.get cache node.id = none) (v : Value)
    (hok : (evalStep ext recur node ctx cache).1 = .ok v) :
    NodeCache.get (evalStep ext recur node ctx cache).2.2 node.id = some (.ok v) := by
  have hshape := evalStep_no_hit ext recur node ctx cache (Or.inr hget)
  rcases hflow : evalDispatch ext recur node ctx cache with ⟨r, c, k⟩ | ⟨r, c, k⟩
  · rw [hshape, hflow] at hok ⊢
    simp only at hok
    obtain ⟨e, he⟩ := evalDispatch_early_error ext recur node ctx cache r c k hflow
    rw [he] at hok
    exact absurd hok (by simp)
  · rw [hshape, hflow] at hok ⊢
    simp only at hok ⊢
    rw [hok]
    exact NodeCache.get_insert_self _ _ _

/-- Wrapping is the identity on the i64 range: for values already in
`[-2^63, 2^63)` the wrapped step equals the mathematical step. -/
theorem wrapI64_eq_of_i64_range (m : Int) (h1 : -(2 ^ 63) ≤ m) (h2 : m < 2 ^ 63) :
    wrapI64 m = m := by
  unfold wrapI64
  have h3 : (0 : Int) ≤ m + 2 ^ 63 := by omega
  have h4 : m + 2 ^ 63 < 2 ^ 64 := by omega
  rw [Int.emod_eq_of_lt h3 h4]
  omega

/-! Claim theorems. -/

/-- C1 (amended): for a definition node `(def NAME VALUE)` that evaluates
successfully on a cache miss, the environment is extended with NAME bound
to the *computed value* of VALUE — not to the node id of VALUE as the
claim states — and resolving NAME afterwards yields that value.  The
context has type `IndexMap<String, Value>`: no node id is ever stored in
it. -/
theorem c1_def_binds_computed_value (fuel : Nat) (ext : Ext) (ctx : Ctx)
    (cache : NodeCache) (name snip : String) (valueNode : Node) (v : Value)
    (c : Ctx) (k : NodeCache)
    (hmiss : NodeCache.get cache (defNodeOf snip name valueNode).id = none)
    (hval : evalNode fuel ext valueNode ctx cache = (.ok v, c, k)) :
    evalNode (fuel + 1) ext (defNodeOf snip name valueNode) ctx cache =
      (.ok v, assocInsert c name v,
        NodeCache.insert k (defNodeOf snip name valueNode).id (.ok v)) ∧
    assocLookup (assocInsert c name v) name = some v :=
  ⟨evalNode_defNodeOf fuel ext snip name valueNode ctx cache v c k hmiss hval,
   assocLookup_insert_self c name v⟩

theorem c1_witness :
    evalNode 1 ext0 (numLit 2) [] emptyNodeCache
      = (.ok (.Number 2), [],
          NodeCache.insert emptyNodeCache (numLit 2).id (.ok (.Number 2))) ∧
    assocLookup
      (assocInsert ([] : Ctx) "x" (Value.Number 2)) "x" = some (Value.Number 2) :=
  ⟨rfl,
   (c1_def_binds_computed_value 1 ext0 [] emptyNodeCache "x" "(def x 2)" (numLit 2)
      (Value.Number 2) []
      (NodeCache.insert emptyNodeCache (numLit 2).id (.ok (.Number 2))) rfl rfl).2⟩

/-- C1 counterexample: after evaluating `(def x 2)` from the empty
environment, the environment maps `x` to the computed value
`Value::Number(2)` — exactly what the claim rules out with "not to the
computed value"; nothing resembling `id(VALUE)` is bound, since the
environment codomain is `Value`. -/
theorem c1_counterexample :
    (evalNode 2 ext0 (defNodeOf "(def x 2)" "x" (numLit 2)) [] emptyNodeCache).2.1
      = [("x", Value.Number 2)] ∧
    (evalNode 1 ext0 (numLit 2) [] emptyNodeCache).1 = .ok (Value.Number 2) :=
  ⟨rfl, rfl⟩

/-- C2 (amended): recursive evaluation itself installs definition
bindings: evaluating an addition node whose argument is a definition
mutates the shared environment with the binding — `eval_node` performs the
`context.insert`, not the driver loop (which only threads state, see
`runSequence`). -/
theorem c2_eval_installs_binding (fuel : Nat) (ext : Ext) (ctx : Ctx)
    (cache : NodeCache) (name snip snipd : String) (n : Int)
    (hmissAdd : NodeCache.get cache
      (mkNode .Addition snip [symNode "+", defNodeOf snipd name (numLit n)]).id = none)
    (hmissDef : NodeCache.get cache (defNodeOf snipd name (numLit n)).id = none)
    (hmissN : NodeCache.get cache (numLit n).id = none) :
    (evalNode (fuel + 3) ext
        (mkNode .Addition snip [symNode "+", defNodeOf snipd name (numLit n)]) ctx cache).2.1
      = assocInsert ctx name (Value.Number n) := by
  have hval : evalNode (fuel + 1) ext (numLit n) ctx cache
      = (.ok (.Number n), ctx, NodeCache.insert cache (numLit n).id (.ok (.Number n))) := by
    rw [evalNode_numLit, hmissN]
  have hdef := evalNode_defNodeOf (fuel + 1) ext snipd name (numLit n) ctx cache
    (.Number n) ctx (NodeCache.insert cache (numLit n).id (.ok (.Number n))) hmissDef hval
  rw [show fuel + 3 = (fuel + 2) + 1 from rfl, evalNode_succ,
    evalStep_miss ext (evalNode (fuel + 2) ext)
      (mkNode .Addition snip [symNode "+", defNodeOf snipd name (numLit n)]) ctx cache rfl
      hmissAdd]
  have hd : evalDispatch ext (evalNode (fuel + 2) ext)
      (mkNode .Addition snip [symNode "+", defNodeOf snipd name (numLit n)]) ctx cache
      = (match [defNodeOf snipd name (numLit n)].foldl
              (addStep (evalNode (fuel + 2) ext)) (.run 0 ctx cache) with
         | .run acc c k => .computed (.ok (.Number acc)) c k
         | .err e c k => .early (.error e) c k) := rfl
  rw [hd]
  simp only [List.foldl_cons, List.foldl_nil, addStep]
  rw [hdef]

theorem c2_eval_installs_binding_witness :
    (evalNode 3 ext0
        (mkNode .Addition "(+ (def x 1))" [symNode "+", defNodeOf "(def x 1)" "x" (numLit 1)])
        [] emptyNodeCache).2.1
      = assocInsert ([] : Ctx) "x" (Value.Number 1) :=
  c2_eval_installs_binding 0 ext0 [] emptyNodeCache "x" "(+ (def x 1))" "(def x 1)" 1
    rfl rfl rfl

/-- C2 counterexample: evaluating the single node `(+ (def x 1) 2)` (no
driver loop involved) from the empty environment leaves `x` bound — pure
recursive evaluation does mutate the environment it is given, and the
driver installs no bindings of its own. -/
theorem c2_counterexample :
    assocLookup
      (evalNode 3 ext0
        (mkNode .Addition "(+ (def x 1) 2)"
          [symNode "+", defNodeOf "(def x 1)" "x" (numLit 1), numLit 2])
        [] emptyNodeCache).2.1 "x" = some (Value.Number 1) ∧
    assocLookup ([] : Ctx) "x" = none :=
  ⟨rfl, rfl⟩

/-- C3 (amended): a node id depends only on the kind, the snippet, and the
ordered child ids (equal triples give equal ids), and kinds whose hash
tags start with different bytes (such as any symbol node versus any number
node) always produce different ids; but the hash input concatenates the
kind payload, snippet and child ids without length separators, so the map
from triples to ids is not injective (see the counterexample). -/
theorem c3_hash_of_triple (k : NodeKind) (s : String) :
    (∀ cs1 cs2 : List Node, cs1.map Node.id = cs2.map Node.id →
      (mkNode k s cs1).id = (mkNode k s cs2).id) ∧
    (∀ (a s1 : String) (c1 : List Node) (n : Int) (s2 : String) (c2 : List Node),
      (mkNode (.Symbol a) s1 c1).id ≠ (mkNode (.Number n) s2 c2).id) := by
  constructor
  · intro cs1 cs2 hids
    show computeHash k s (cs1.map Node.id) = computeHash k s (cs2.map Node.id)
    rw [hids]
  · intro a s1 c1 n s2 c2 h
    have hs : (mkNode (.Symbol a) s1 c1).id
        = utf8Bytes "Symbol:" ++ (utf8Bytes a ++ (utf8Bytes s1 ++ (c1.map Node.id).flatten)) := by
      show (utf8Bytes "Symbol:" ++ utf8Bytes a) ++ utf8Bytes s1 ++ (c1.map Node.id).flatten
        = _
      simp [List.append_assoc]
    have hn : (mkNode (.Number n) s2 c2).id
        = utf8Bytes "Number:" ++ (i64LeBytes n ++ (utf8Bytes s2 ++ (c2.map Node.id).flatten)) := by
      show (utf8Bytes "Number:" ++ i64LeBytes n) ++ utf8Bytes s2 ++ (c2.map Node.id).flatten
        = _
      simp [List.append_assoc]
    rw [hs, hn] at h
    have e1 : utf8Bytes "Symbol:"
        = (83 : UInt8) :: [(121 : UInt8), 109, 98, 111, 108, 58] := by decide
    have e2 : utf8Bytes "Number:"
        = (78 : UInt8) :: [(117 : UInt8), 109, 98, 101, 114, 58] := by decide
    rw [e1, e2] at h
    have hhead := congrArg List.head? h
    simp only [List.cons_append, List.head?_cons] at hhead
    exact absurd (Option.some.inj hhead) (by decide)

theorem c3_hash_of_triple_witness :
    (mkNode .Definition "(def x 2)" [symNode "def", symNode "x", numLit 2]).id
      = (mkNode .Definition "(def x 2)" [symNode "def", symNode "x", numLit 2]).id ∧
    (mkNode (.Symbol "x") "x" []).id ≠ (mkNode (.Number 2) "2" []).id :=
  ⟨(c3_hash_of_triple .Definition "(def x 2)").1
      [symNode "def", symNode "x", numLit 2] [symNode "def", symNode "x", numLit 2] rfl,
   (c3_hash_of_triple .Definition "(def x 2)").2 "x" "x" [] 2 "2" []⟩

/-- C3 counterexample: `Symbol("ab")` with snippet `""` and `Symbol("a")`
with snippet `"b"` differ in both kind payload and snippet, yet the hasher
is fed the identical byte stream for both, so their ids are equal with no
BLAKE3 collision involved — refuting the claimed converse direction. -/
theorem c3_counterexample :
    (mkNode (.Symbol "ab") "" []).id = (mkNode (.Symbol "a") "b" []).id ∧
    ¬ (NodeKind.Symbol "ab" = NodeKind.Symbol "a" ∧ ("" : String) = "b") :=
  ⟨by decide, by decide⟩

/-- C4: for a non-symbol node whose id is cached, `eval_node` returns the
cached result as-is with no state change (no children re-evaluated, no
primitive invoked, nothing written); for a symbol node the returned value
is the context lookup, independent of any cache content at its id. -/
theorem c4_memoised_lookup (fuel : Nat) (ext : Ext) (node : Node) (ctx : Ctx)
    (cache : NodeCache) :
    (∀ r : EvalResult, isSymbolKind node.kind = false →
      NodeCache.get cache node.id = some r →
      evalNode (fuel + 1) ext node ctx cache = (r, ctx, cache)) ∧
    (∀ name : String, node.kind = .Symbol name →
      (evalNode (fuel + 1) ext node ctx cache).1 = symbolLookupResult ctx name) := by
  constructor
  · intro r hsym hget
    exact evalNode_cache_hit fuel ext node ctx cache r hsym hget
  · intro name hk
    rw [evalNode_symbol fuel ext node ctx cache name hk]

theorem c4_memoised_lookup_witness :
    evalNode 1 ext0 (numLit 7) []
        (NodeCache.insert emptyNodeCache (numLit 7).id (.ok (.Number 42)))
      = (.ok (.Number 42), [],
          NodeCache.insert emptyNodeCache (numLit 7).id (.ok (.Number 42))) ∧
    (evalNode 1 ext0 (symNode "z") []
        (NodeCache.insert emptyNodeCache (symNode "z").id (.ok (.Number 99)))).1
      = symbolLookupResult [] "z" :=
  ⟨(c4_memoised_lookup 0 ext0 (numLit 7) []
      (NodeCache.insert emptyNodeCache (numLit 7).id (.ok (.Number 42)))).1
      (.ok (.Number 42)) rfl rfl,
   (c4_memoised_lookup 0 ext0 (symNode "z") []
      (NodeCache.insert emptyNodeCache (symNode "z").id (.ok (.Number 99)))).2 "z" rfl⟩

/-- C5 (amended): when every root is a non-symbol node with an entry in
the cache of the previous cycle, saving that cache, reloading it into a
fresh cache and re-evaluating yields an empty changed set (and an
unchanged context): loading preserves every key, and each root is then
served by a cache hit, which returns without any cache write.  The
claimed entry-wise round-trip of printed representations does not hold
for error entries (see the counterexample) and is not what makes the
changed set empty. -/
theorem c5_reload_empty_changed_set (fuel : Nat) (ext : Ext) (roots : List Node)
    (ctx : Ctx) (cache : NodeCache)
    (h : ∀ r ∈ roots, isSymbolKind r.kind = false ∧
      (NodeCache.get cache r.id).isSome = true) :
    (runOnce (fuel + 1) ext roots ctx
        (loadCacheFromFile (saveCacheFile cache) emptyNodeCache)).2.changed_nodes = [] ∧
    (runOnce (fuel + 1) ext roots ctx
        (loadCacheFromFile (saveCacheFile cache) emptyNodeCache)).1 = ctx := by
  have hall : ∀ rt ∈ roots, isSymbolKind rt.kind = false ∧
      (NodeCache.get
        (prepareForEvaluation (loadCacheFromFile (saveCacheFile cache) emptyNodeCache))
        rt.id).isSome = true := by
    intro rt hrt
    refine ⟨(h rt hrt).1, ?_⟩
    rw [NodeCache.get_prepare]
    apply (get_loadCacheFromFile_isSome (saveCacheFile cache) emptyNodeCache rt.id).mpr
    refine Or.inr ((saveCacheFile_keys cache rt.id).mpr ?_)
    exact (assocLookup_isSome_iff cache.values rt.id).mp (h rt hrt).2
  have hrun := runSequence_all_hits fuel ext roots ctx
    (prepareForEvaluation (loadCacheFromFile (saveCacheFile cache) emptyNodeCache)) hall
  unfold runOnce
  rw [hrun]
  exact ⟨prepare_changed_nil _, rfl⟩

theorem c5_reload_empty_changed_set_witness :
    (∀ r ∈ [numLit 2],
      isSymbolKind r.kind = false ∧
      (NodeCache.get (NodeCache.insert emptyNodeCache (numLit 2).id (.ok (.Number 2)))
        r.id).isSome = true) ∧
    (runOnce 1 ext0 [numLit 2] []
        (loadCacheFromFile
          (saveCacheFile (NodeCache.insert emptyNodeCache (numLit 2).id (.ok (.Number 2))))
          emptyNodeCache)).2.changed_nodes = [] :=
  ⟨by
     intro r hr
     rw [List.mem_singleton] at hr
     subst hr
     exact ⟨rfl, rfl⟩,
   (c5_reload_empty_changed_set 0 ext0 [numLit 2] []
      (NodeCache.insert emptyNodeCache (numLit 2).id (.ok (.Number 2)))
      (by
        intro r hr
        rw [List.mem_singleton] at hr
        subst hr
        exact ⟨rfl, rfl⟩)).1⟩

/-- C5 counterexample: a cached `HttpError` entry does not round-trip to
an entry with the same printed representation: it is saved as the
`Display` rendering `"Error: HTTP Error: boom"` and reloaded as
`EvalError("HTTP Error: boom")` — the error kind collapses to `EvalError`
and the `Debug` representations differ, refuting the claim's parenthetical
"every entry round-trips to one whose printed representation equals the
original's". -/
theorem c5_counterexample :
    loadEntryStr (saveEntry (.error (.HttpError "boom")))
      = .error (.EvalError "HTTP Error: boom") ∧
    debugResult (loadEntryStr (saveEntry (.error (.HttpError "boom"))))
      ≠ debugResult (.error (.HttpError "boom")) :=
  ⟨rfl, by decide⟩

/-- C6: `NodeCache::insert` always stores the value, and marks the id as
changed exactly when the incoming result's printed representation differs
from the stored entry's or no entry was stored; a write of an identical
representation leaves the changed set untouched. -/
theorem c6_insert_marks_changed (cache : NodeCache) (id : NodeId) (r : EvalResult) :
    NodeCache.get (cache.insert id r) id = some r ∧
    (NodeCache.get cache id = none →
      (cache.insert id r).changed_nodes = setInsert cache.changed_nodes id) ∧
    (∀ old, NodeCache.get cache id = some old → debugResult old ≠ debugResult r →
      (cache.insert id r).changed_nodes = setInsert cache.changed_nodes id) ∧
    (∀ old, NodeCache.get cache id = some old → debugResult old = debugResult r →
      (cache.insert id r).changed_nodes = cache.changed_nodes) ∧
    id ∈ setInsert cache.changed_nodes id := by
  refine ⟨NodeCache.get_insert_self cache id r, ?_, ?_, ?_, mem_setInsert_self _ _⟩
  · intro hnone
    have hv : assocLookup cache.values id = none := hnone
    simp [NodeCache.insert, hv]
  · intro old hold hne
    have hv : assocLookup cache.values id = some old := hold
    simp [NodeCache.insert, hv, hne]
  · intro old hold heq
    have hv : assocLookup cache.values id = some old := hold
    simp [NodeCache.insert, hv, heq]

theorem c6_insert_marks_changed_witness :
    NodeCache.get (emptyNodeCache.insert [] (.ok (.Number 1))) []
      = some (.ok (.Number 1)) ∧
    (emptyNodeCache.insert [] (.ok (.Number 1))).changed_nodes
      = setInsert emptyNodeCache.changed_nodes [] ∧
    ((emptyNodeCache.insert [] (.ok (.Number 1))).insert []
        (.ok (.Number 1))).changed_nodes
      = (emptyNodeCache.insert [] (.ok (.Number 1))).changed_nodes :=
  ⟨(c6_insert_marks_changed emptyNodeCache [] (.ok (.Number 1))).1,
   (c6_insert_marks_changed emptyNodeCache [] (.ok (.Number 1))).2.1 rfl,
   (c6_insert_marks_changed (emptyNodeCache.insert [] (.ok (.Number 1))) []
      (.ok (.Number 1))).2.2.2.1 (.ok (.Number 1)) rfl rfl⟩

/-- C7 (spec-modelled): a let-expression `(let NAME VALUE BODY)` evaluates
VALUE in the current environment, evaluates BODY in that environment
extended with NAME bound to id(VALUE), returns the body's result, and
leaves the outer environment untouched (resolution of any other name is
unchanged, and the evaluator returns no modified environment); the spec's
scenario `(let a 1 (let a 2 (+ a a)))` yields `4` with no binding for `a`
in the outer (empty) environment. -/
theorem c7_let_expression (fuel : Nat) (nodes : SpecNodes) (env : SpecEnv)
    (snip name : String) (valueNode bodyNode : SpecNode) (v : Value)
    (hval : specEval fuel nodes valueNode env = .ok v) :
    specEval (fuel + 1) nodes (letNodeOf snip name valueNode bodyNode) env
      = specEval fuel nodes bodyNode ((name, valueNode.id) :: env) ∧
    resolveEnv ((name, valueNode.id) :: env) name = some valueNode.id ∧
    (∀ s, s ≠ name → resolveEnv ((name, valueNode.id) :: env) s = resolveEnv env s) ∧
    specEval 9 specExampleNodes specOuterLet [] = .ok (.Number 4) ∧
    resolveEnv [] "a" = none := by
  refine ⟨?_, ?_, ?_, rfl, rfl⟩
  · show (match specEval fuel nodes valueNode env with
      | .ok _ => specEval fuel nodes bodyNode ((name, valueNode.id) :: env)
      | .error e => .error e) = _
    rw [hval]
  · simp [resolveEnv, assocLookup]
  · intro s hs
    show (if name = s then some valueNode.id else assocLookup env s) = _
    rw [if_neg (fun e => hs e.symm)]
    rfl

theorem c7_let_expression_witness :
    specEval 2 specExampleNodes specNum1 [] = .ok (.Number 1) ∧
    specEval 3 specExampleNodes (letNodeOf "(let b 1 2)" "b" specNum1 specNum2) []
      = specEval 2 specExampleNodes specNum2 [("b", specNum1.id)] ∧
    specEval 9 specExampleNodes specOuterLet [] = .ok (.Number 4) :=
  ⟨rfl,
   (c7_let_expression 2 specExampleNodes [] "(let b 1 2)" "b" specNum1 specNum2
      (.Number 1) rfl).1,
   (c7_let_expression 2 specExampleNodes [] "(let b 1 2)" "b" specNum1 specNum2
      (.Number 1) rfl).2.2.2.1⟩

/-- C8: `(+)` and `(*)` with zero arguments (fewer than two children,
since the head symbol is children[0]) evaluate to an `EvalError` rather
than a neutral element; with at least one argument, the i64 sum
respectively product of the integer arguments is returned — each
accumulation step is an `i64` operation, so the result is the wrapped
fold, which coincides with the mathematical sum/product whenever every
step stays in the i64 range (last conjunct).  The value parts are stated
for distinct uncached number-literal arguments, the distinctness being
over node ids as the spec's no-collision assumption. -/
theorem c8_arith_zero_args_error (fuel : Nat) (ext : Ext) (snip : String)
    (ctx : Ctx) (cache : NodeCache) :
    (∀ children : List Node, children.length < 2 →
      NodeCache.get cache (mkNode .Addition snip children).id = none →
      (evalNode (fuel + 1) ext (mkNode .Addition snip children) ctx cache).1
        = .error (.EvalError "\x27+\x27 requires at least 1 argument")) ∧
    (∀ children : List Node, children.length < 2 →
      NodeCache.get cache (mkNode .Multiplication snip children).id = none →
      (evalNode (fuel + 1) ext (mkNode .Multiplication snip children) ctx cache).1
        = .error (.EvalError "\x27*\x27 requires at least 1 argument")) ∧
    (∀ ns : List Int, ns ≠ [] → (ns.map fun x => (numLit x).id).Nodup →
      NodeCache.get cache (addNodeOf snip ns).id = none →
      (∀ x ∈ ns, NodeCache.get cache (numLit x).id = none) →
      (evalNode (fuel + 2) ext (addNodeOf snip ns) ctx cache).1
        = .ok (.Number (ns.foldl (fun a x => wrapI64 (a + x)) 0))) ∧
    (∀ ns : List Int, ns ≠ [] → (ns.map fun x => (numLit x).id).Nodup →
      NodeCache.get cache (mulNodeOf snip ns).id = none →
      (∀ x ∈ ns, NodeCache.get cache (numLit x).id = none) →
      (evalNode (fuel + 2) ext (mulNodeOf snip ns) ctx cache).1
        = .ok (.Number (ns.foldl (fun a x => wrapI64 (a * x)) 1))) ∧
    (∀ m : Int, -(2 ^ 63) ≤ m → m < 2 ^ 63 → wrapI64 m = m) :=
  ⟨fun children h1 h2 => evalNode_add_zero_args fuel ext snip children ctx cache h1 h2,
   fun children h1 h2 => evalNode_mul_zero_args fuel ext snip children ctx cache h1 h2,
   fun ns h1 h2 h3 h4 => evalNode_add_lits fuel ext snip ns ctx cache h1 h2 h3 h4,
   fun ns h1 h2 h3 h4 => evalNode_mul_lits fuel ext snip ns ctx cache h1 h2 h3 h4,
   fun m h1 h2 => wrapI64_eq_of_i64_range m h1 h2⟩

set_option maxRecDepth 8000 in
theorem c8_arith_zero_args_error_witness :
    (evalNode 1 ext0 (mkNode .Addition "(+)" [symNode "+"]) [] emptyNodeCache).1
      = .error (.EvalError "\x27+\x27 requires at least 1 argument") ∧
    (evalNode 1 ext0 (mkNode .Multiplication "(*)" [symNode "*"]) [] emptyNodeCache).1
      = .error (.EvalError "\x27*\x27 requires at least 1 argument") ∧
    (evalNode 2 ext0 (addNodeOf "(+ 1 2)" [1, 2]) [] emptyNodeCache).1
      = .ok (.Number 3) ∧
    (evalNode 2 ext0 (mulNodeOf "(* 2 3)" [2, 3]) [] emptyNodeCache).1
      = .ok (.Number 6) ∧
    wrapI64 3 = 3 :=
  ⟨(c8_arith_zero_args_error 0 ext0 "(+)" [] emptyNodeCache).1 [symNode "+"]
      (by decide) rfl,
   (c8_arith_zero_args_error 0 ext0 "(*)" [] emptyNodeCache).2.1 [symNode "*"]
      (by decide) rfl,
   (c8_arith_zero_args_error 0 ext0 "(+ 1 2)" [] emptyNodeCache).2.2.1 [1, 2]
      (by decide) (by decide) rfl (fun x _ => rfl),
   (c8_arith_zero_args_error 0 ext0 "(* 2 3)" [] emptyNodeCache).2.2.2.1 [2, 3]
      (by decide) (by decide) rfl (fun x _ => rfl),
   (c8_arith_zero_args_error 0 ext0 "w" [] emptyNodeCache).2.2.2.2 3
      (by decide) (by decide)⟩

/-- C9: a definition node whose id is cached returns the cached result
with the environment untouched — no binding for the defined name is
installed — so a later symbol lookup of a name that is unbound in the
environment fails with an undefined-symbol error even though the
definition "evaluated" (the warm-restart hazard). -/
theorem c9_cached_definition_skips_binding (fuel : Nat) (ext : Ext) (node : Node)
    (ctx : Ctx) (cache : NodeCache) (r : EvalResult) (name : String)
    (hk : node.kind = .Definition)
    (hget : NodeCache.get cache node.id = some r) :
    evalNode (fuel + 1) ext node ctx cache = (r, ctx, cache) ∧
    (assocLookup ctx name = none →
      (evalNode (fuel + 1) ext (symNode name) ctx cache).1
        = .error (.EvalError ("Undefined symbol: " ++ name))) := by
  have hsym : isSymbolKind node.kind = false := by rw [hk]; rfl
  refine ⟨evalNode_cache_hit fuel ext node ctx cache r hsym hget, ?_⟩
  intro hname
  rw [evalNode_symbol fuel ext (symNode name) ctx cache name rfl]
  show symbolLookupResult ctx name = _
  unfold symbolLookupResult
  rw [hname]

set_option maxRecDepth 8000 in
theorem c9_cached_definition_skips_binding_witness :
    evalNode 1 ext0 (defNodeOf "(def x 2)" "x" (numLit 2)) []
        (NodeCache.insert emptyNodeCache (defNodeOf "(def x 2)" "x" (numLit 2)).id
          (.ok (.Number 2)))
      = (.ok (.Number 2), [],
          NodeCache.insert emptyNodeCache (defNodeOf "(def x 2)" "x" (numLit 2)).id
            (.ok (.Number 2))) ∧
    (evalNode 1 ext0 (symNode "x") []
        (NodeCache.insert emptyNodeCache (defNodeOf "(def x 2)" "x" (numLit 2)).id
          (.ok (.Number 2)))).1
      = .error (.EvalError ("Undefined symbol: " ++ "x")) :=
  ⟨(c9_cached_definition_skips_binding 0 ext0 (defNodeOf "(def x 2)" "x" (numLit 2)) []
      (NodeCache.insert emptyNodeCache (defNodeOf "(def x 2)" "x" (numLit 2)).id
        (.ok (.Number 2)))
      (.ok (.Number 2)) "x" rfl rfl).1,
   (c9_cached_definition_skips_binding 0 ext0 (defNodeOf "(def x 2)" "x" (numLit 2)) []
      (NodeCache.insert emptyNodeCache (defNodeOf "(def x 2)" "x" (numLit 2)).id
        (.ok (.Number 2)))
      (.ok (.Number 2)) "x" rfl rfl).2 rfl⟩

/-- C10 (amended): `eval_node` writes back exactly the results that
reach the fall-through of its dispatch (the value of the Rust `result`
expression): every symbol-node result (value or undefined-symbol error),
every `Ok` result computed on a cache miss, and in general every result
whose dispatch flow is `computed` — which includes the match-arm error
values such as the wrong-argument-type errors of `http.get`, `json.parse`
and `str.upper`, the type and key-not-found errors of `get`, and the
unknown-function / non-symbol-head errors of generic lists — is stored
under the node's id before returning.  Only the Rust `return` statements
(modelled as `early` flows) skip the write: the cache-hit return, the
arity-check errors, the `def`-name-not-a-symbol and empty-list errors,
the number-type errors inside the `+`/`*` argument loops, and errors
propagated by `?` from child evaluation, HTTP transport, or JSON parsing;
every such early flow on a non-hit path carries an error, so every `Ok`
the function computes is cached, but not every computed error is. -/
theorem c10_ok_results_written_back (fuel : Nat) (ext : Ext) (node : Node)
    (ctx : Ctx) (cache : NodeCache) :
    (∀ name, node.kind = .Symbol name →
      NodeCache.get (evalNode (fuel + 1) ext node ctx cache).2.2 node.id
        = some ((evalNode (fuel + 1) ext node ctx cache).1)) ∧
    (∀ v : Value, NodeCache.get cache node.id = none →
      (evalNode (fuel + 1) ext node ctx cache).1 = .ok v →
      NodeCache.get (evalNode (fuel + 1) ext node ctx cache).2.2 node.id
        = some (.ok v)) ∧
    (∀ (r : EvalResult) (c : Ctx) (k : NodeCache),
      (isSymbolKind node.kind = true ∨ NodeCache.get cache node.id = none) →
      evalDispatch ext (evalNode fuel ext) node ctx cache = .computed r c k →
      evalNode (fuel + 1) ext node ctx cache = (r, c, NodeCache.insert k node.id r) ∧
      NodeCache.get (evalNode (fuel + 1) ext node ctx cache).2.2 node.id = some r) ∧
    (∀ (r : EvalResult) (c : Ctx) (k : NodeCache),
      (isSymbolKind node.kind = true ∨ NodeCache.get cache node.id = none) →
      evalDispatch ext (evalNode fuel ext) node ctx cache = .early r c k →
      evalNode (fuel + 1) ext node ctx cache = (r, c, k) ∧ ∃ e, r = .error e) := by
  refine ⟨?_, ?_, ?_, ?_⟩
  · intro name hk
    rw [evalNode_symbol fuel ext node ctx cache name hk]
    exact NodeCache.get_insert_self _ _ _
  · intro v hget hok
    exact evalStep_writeback_ok ext (evalNode fuel ext) node ctx cache hget v hok
  · intro r c k h hdisp
    have he : evalNode (fuel + 1) ext node ctx cache
        = (r, c, NodeCache.insert k node.id r) := by
      rw [evalNode_succ, evalStep_no_hit ext (evalNode fuel ext) node ctx cache h, hdisp]
    exact ⟨he, by rw [he]; exact NodeCache.get_insert_self _ _ _⟩
  · intro r c k h hdisp
    refine ⟨?_, evalDispatch_early_error ext (evalNode fuel ext) node ctx cache r c k hdisp⟩
    rw [evalNode_succ, evalStep_no_hit ext (evalNode fuel ext) node ctx cache h, hdisp]

set_option maxRecDepth 8000 in
theorem c10_ok_results_written_back_witness :
    NodeCache.get (evalNode 1 ext0 (symNode "q") [] emptyNodeCache).2.2 (symNode "q").id
      = some ((evalNode 1 ext0 (symNode "q") [] emptyNodeCache).1) ∧
    NodeCache.get (evalNode 1 ext0 (numLit 5) [] emptyNodeCache).2.2 (numLit 5).id
      = some (.ok (.Number 5)) ∧
    NodeCache.get
      (evalNode 2 ext0
        (mkNode .StringUpper "(str.upper 5)" [symNode "str.upper", numLit 5])
        [] emptyNodeCache).2.2
      (mkNode .StringUpper "(str.upper 5)" [symNode "str.upper", numLit 5]).id
      = some (.error (.EvalError
          "\x27str.upper\x27 expects its argument to evaluate to a string, got Number(5)")) :=
  ⟨(c10_ok_results_written_back 0 ext0 (symNode "q") [] emptyNodeCache).1 "q" rfl,
   (c10_ok_results_written_back 0 ext0 (numLit 5) [] emptyNodeCache).2.1 (.Number 5)
      rfl rfl,
   ((c10_ok_results_written_back 1 ext0
      (mkNode .StringUpper "(str.upper 5)" [symNode "str.upper", numLit 5])
      [] emptyNodeCache).2.2.1
      (.error (.EvalError
        "\x27str.upper\x27 expects its argument to evaluate to a string, got Number(5)"))
      []
      (NodeCache.insert emptyNodeCache (numLit 5).id (.ok (.Number 5)))
      (Or.inr rfl) rfl).2⟩

/-- C10 counterexample: evaluating `(+)` on an empty cache (so no cache
hit is possible) computes the arity `EvalError`, yet the returned cache
has no entry at the node's id — the `return Err(..)` bypassed the final
`cache.insert`, so the computed result was not written back. -/
theorem c10_counterexample :
    (evalNode 1 ext0 (mkNode .Addition "(+)" [symNode "+"]) [] emptyNodeCache).1
      = .error (.EvalError "\x27+\x27 requires at least 1 argument") ∧
    NodeCache.get (evalNode 1 ext0 (mkNode .Addition "(+)" [symNode "+"]) []
        emptyNodeCache).2.2
      (mkNode .Addition "(+)" [symNode "+"]).id = none ∧
    NodeCache.get emptyNodeCache (mkNode .Addition "(+)" [symNode "+"]).id = none :=
  ⟨rfl, rfl, rfl⟩

end Garden
